import Mathlib

/-!
Verification of the Licensy license-entitlement engine.

Shallow embedding of `bot/utils/licence_helper.py` (the key formatter) and
`bot/models/models.py` (the entitlement data model) in Lean 4.

Strings are modelled as `List Char`.  The cryptographically secure random
source `secrets.choice` is modelled as an explicit parameter
`choice : List Char → Char` picking one character from a charset, so that
every function in the embedding is a pure, executable definition.
-/

namespace Licensy

/-- The character code of a left curly brace (written via `Char.ofNat`). -/
def lbrace : Char := Char.ofNat 123

/-- The character code of a right curly brace (written via `Char.ofNat`). -/
def rbrace : Char := Char.ofNat 125

/-- The literal branding token of the format language, Python `"{branding}"`. -/
def brandingTok : List Char :=
  [lbrace, 'b', 'r', 'a', 'n', 'd', 'i', 'n', 'g', rbrace]

/-- Python `string.digits`. -/
def digits : List Char := "0123456789".data

/-- Python `string.ascii_uppercase`. -/
def ascii_uppercase : List Char := "ABCDEFGHIJKLMNOPQRSTUVWXYZ".data

/-- Python `string.ascii_lowercase`. -/
def ascii_lowercase : List Char := "abcdefghijklmnopqrstuvwxyz".data

/-- Python `string.ascii_letters` (lowercase followed by uppercase). -/
def ascii_letters : List Char := ascii_lowercase ++ ascii_uppercase

/-- Python `string.punctuation`: the 32 ASCII punctuation characters,
codes 33-47, 58-64, 91-96 and 123-126. -/
def punctuation : List Char :=
  ((List.range 15).map fun i => Char.ofNat (33 + i)) ++
  ((List.range 7).map fun i => Char.ofNat (58 + i)) ++
  ((List.range 6).map fun i => Char.ofNat (91 + i)) ++
  ((List.range 4).map fun i => Char.ofNat (123 + i))

/-- `LicenseFormatter._mapping`: the placeholder table `D`, `U`, `L`, `A`, `S`. -/
def mapping (c : Char) : Option (List Char) :=
  if c = 'D' then some digits
  else if c = 'U' then some ascii_uppercase
  else if c = 'L' then some ascii_lowercase
  else if c = 'A' then some (ascii_letters ++ digits)
  else if c = 'S' then some punctuation
  else none

/-- `LicenseFormatter.default_license_format`:
the string `"{branding}AAAAA-AAAAA-AAAAA-AAAAA-AAAAA"`. -/
def default_license_format : List Char :=
  brandingTok ++ "AAAAA-AAAAA-AAAAA-AAAAA-AAAAA".data

/-- `LicenseFormatter.min_permutation_count = 10 ** 24`. -/
def min_permutation_count : Nat := 10 ^ 24

/-- `LicenseFormatter.min_license_length = 14`. -/
def min_license_length : Nat := 14

/-- Python `s.split("{branding}")` specialised to the fixed ten-character
separator, on char lists; the accumulator holds the current piece reversed. -/
def splitBrandingAux : List Char → List Char → List (List Char)
  | c0 :: c1 :: c2 :: c3 :: c4 :: c5 :: c6 :: c7 :: c8 :: c9 :: rest, acc =>
    if c0 = lbrace ∧ c1 = 'b' ∧ c2 = 'r' ∧ c3 = 'a' ∧ c4 = 'n' ∧ c5 = 'd' ∧
       c6 = 'i' ∧ c7 = 'n' ∧ c8 = 'g' ∧ c9 = rbrace then
      acc.reverse :: splitBrandingAux rest []
    else
      splitBrandingAux (c1 :: c2 :: c3 :: c4 :: c5 :: c6 :: c7 :: c8 :: c9 :: rest) (c0 :: acc)
  | s, acc => [acc.reverse ++ s]

/-- `license_format.split("{branding}")` from `parse_format`. -/
def splitBranding (s : List Char) : List (List Char) := splitBrandingAux s []

/-- The inner loop of `parse_format`: each placeholder character is replaced by
`secrets.choice(charset)` (modelled by `choice`), any other character is kept. -/
def processPiece (choice : List Char → Char) (piece : List Char) : List Char :=
  piece.map fun c =>
    match mapping c with
    | some charset => choice charset
    | none => c

/-- Python `built_string.format(branding=...)`: replaces each `"{branding}"`
field with the branding string, unescapes doubled braces, and fails (`none`,
modelling `KeyError` / `ValueError`) on any other brace use. -/
def pyFormat (branding : List Char) : List Char → Option (List Char)
  | [] => some []
  | x :: xs =>
    if x = lbrace then
      match xs with
      | c1 :: c2 :: c3 :: c4 :: c5 :: c6 :: c7 :: c8 :: c9 :: rest =>
        if c1 = lbrace then
          (pyFormat branding (c2 :: c3 :: c4 :: c5 :: c6 :: c7 :: c8 :: c9 :: rest)).map
            fun t => lbrace :: t
        else if c1 = 'b' ∧ c2 = 'r' ∧ c3 = 'a' ∧ c4 = 'n' ∧ c5 = 'd' ∧
                c6 = 'i' ∧ c7 = 'n' ∧ c8 = 'g' ∧ c9 = rbrace then
          (pyFormat branding rest).map fun t => branding ++ t
        else none
      | c1 :: rest =>
        if c1 = lbrace then (pyFormat branding rest).map fun t => lbrace :: t else none
      | [] => none
    else if x = rbrace then
      match xs with
      | c1 :: rest =>
        if c1 = rbrace then (pyFormat branding rest).map fun t => rbrace :: t else none
      | [] => none
    else
      (pyFormat branding xs).map fun t => x :: t

/-- The join step of `parse_format`: `"".join(sublist) if len(sublist) > 0 else
"{branding}"` over all split pieces, concatenated.  Note the source re-inserts
the literal token only for EMPTY pieces. -/
def buildPieces (choice : List Char → Char) (pieces : List (List Char)) : List Char :=
  (pieces.map fun p => if 0 < p.length then processPiece choice p else brandingTok).flatten

/-- `LicenseFormatter.parse_format(license_format, branding)`.  An empty format
falls back to the default format; the result is `none` exactly when the final
`str.format` call would raise. -/
def parse_format (choice : List Char → Char) (license_format branding : List Char) :
    Option (List Char) :=
  let fmt := if license_format = [] then default_license_format else license_format
  pyFormat branding (buildPieces choice (splitBranding fmt))

/-- `LicenseFormatter.generate_single` just forwards to `parse_format`. -/
def generate_single (choice : List Char → Char) (license_format branding : List Char) :
    Option (List Char) :=
  parse_format choice license_format branding

/-- `license_format.replace("{branding}", "")` from `get_format_permutations`. -/
def stripBranding (s : List Char) : List Char := (splitBranding s).flatten

/-- `LicenseFormatter.get_format_permutations`: product of the charset sizes of
all recognised placeholder characters after stripping `"{branding}"`. -/
def get_format_permutations (license_format : List Char) : Nat :=
  (stripBranding license_format).foldl
    (fun p c =>
      match mapping c with
      | some charset => p * charset.length
      | none => p)
    1

/-- `LicenseFormatter.is_secure`. -/
def is_secure (license_format : List Char) : Bool :=
  if license_format.length < min_license_length then false
  else decide (min_permutation_count ≤ get_format_permutations license_format)

/-- The charset size that the specification assigns to each placeholder
character (`D`: 10, `U`: 26, `L`: 26, `A`: 62, `S`: 32 punctuation symbols);
literal characters contribute the neutral multiplier 1. -/
def charsetSize (c : Char) : Nat :=
  if c = 'D' then 10
  else if c = 'U' then 26
  else if c = 'L' then 26
  else if c = 'A' then 62
  else if c = 'S' then 32
  else 1

/-- A concrete deterministic stand-in for the random source (always picks a
fixed letter), used to evaluate the formatter on concrete inputs. -/
def choiceZ : List Char → Char := fun _ => 'z'


/-!
Entitlement data model, from `bot/models/models.py`.

Persistence is modelled explicitly: a table is a `List` of rows, a `save`
returns the new table together with the outcome.  Crucially, tortoise runs
`_pre_save` BEFORE writing the row and `_post_save` AFTER writing it, and the
embedding mirrors that ordering.
-/

/-- The error kinds raised by the model layer: tortoise `FieldError`,
database/`IntegrityError`, and Python's `RecursionError` (for unbounded
recursive saves). -/
inductive DbError where
  | fieldError : DbError
  | integrityError : DbError
  | recursionError : DbError
deriving DecidableEq

deriving instance DecidableEq for Except

/-- A `ReminderActivations` row: five activation offsets in minutes before
expiration, `0` meaning disabled. -/
structure ActivationsRec where
  first_activation : Int
  second_activation : Int
  third_activation : Int
  fourth_activation : Int
  fifth_activation : Int
deriving DecidableEq

/-- `ReminderActivations.get_all_activations`. -/
def get_all_activations (r : ActivationsRec) : List Int :=
  [r.first_activation, r.second_activation, r.third_activation,
   r.fourth_activation, r.fifth_activation]

/-- `ReminderActivations._check_valid_first_activation`.  Note: the source
RETURNS this boolean instead of raising, so the result is a `Bool`. -/
def check_valid_first_activation (r : ActivationsRec) : Bool :=
  decide (0 < (get_all_activations r).headI)

/-- The loop body of `_check_activation_ranges`: raises `FieldError` on the
first negative activation. -/
def checkRangesList : List Int → Except DbError Unit
  | [] => Except.ok ()
  | a :: rest =>
    if a < 0 then Except.error DbError.fieldError else checkRangesList rest

/-- `ReminderActivations._check_activation_ranges`. -/
def check_activation_ranges (r : ActivationsRec) : Except DbError Unit :=
  checkRangesList (get_all_activations r)

/-- The pair loop of `_check_valid_order_activations` over
`zip(positive_activations, positive_activations[1:])`: raises `FieldError` on
a duplicate or an ascending adjacent pair. -/
def checkOrderList : List Int → Except DbError Unit
  | a :: b :: rest =>
    if a = b then Except.error DbError.fieldError
    else if a < b then Except.error DbError.fieldError
    else checkOrderList (b :: rest)
  | _ => Except.ok ()

/-- The `positive_activations` tuple: activations `> 0` in field order. -/
def positive_activations (r : ActivationsRec) : List Int :=
  (get_all_activations r).filter fun a => 0 < a

/-- `ReminderActivations._check_valid_order_activations`. -/
def check_valid_order_activations (r : ActivationsRec) : Except DbError Unit :=
  checkOrderList (positive_activations r)

/-- `ReminderActivations._post_save`: calls `_check_valid_first_activation`
(whose boolean result it DISCARDS, mirroring the source), then the range
check, then the order check. -/
def reminderPostSave (r : ActivationsRec) : Except DbError Unit :=
  let _ := check_valid_first_activation r
  match check_activation_ranges r with
  | Except.error e => Except.error e
  | Except.ok _ => check_valid_order_activations r

/-- Saving a `ReminderActivations` row: tortoise writes the row first and runs
`_post_save` afterwards, so the row is persisted even when `_post_save`
raises. -/
def reminderSave (db : List ActivationsRec) (r : ActivationsRec) :
    List ActivationsRec × Except DbError Unit :=
  (db ++ [r], reminderPostSave r)

/-- The supported language codes, `i18n_handler.LANGUAGES = ("en", "hr")`. -/
def LANGUAGES : List (List Char) := ["en".data, "hr".data]

/-- A `Guild` row, restricted to the fields checked by `Guild._pre_save`.
The field `custom_start` models `custom_prefix` in the source (the custom
command invocation string, max length 10). -/
structure GuildRec where
  id : Nat
  custom_start : List Char
  custom_license_format : List Char
  license_branding : List Char
  timezone : Int
  language : List Char
deriving DecidableEq

/-- `Guild._pre_save`: the validation chain run before the row is written. -/
def guildPreSave (g : GuildRec) : Except DbError Unit :=
  if 10 < g.custom_start.length then Except.error DbError.fieldError
  else if g.custom_license_format ≠ [] ∧ ¬ is_secure g.custom_license_format then
    Except.error DbError.fieldError
  else if 50 < g.license_branding.length then Except.error DbError.fieldError
  else if ¬ (-12 ≤ g.timezone ∧ g.timezone ≤ 14) then Except.error DbError.fieldError
  else if g.language ∉ LANGUAGES then Except.error DbError.fieldError
  else Except.ok ()

/-- Saving a `Guild` row: `_pre_save` runs before the write, so a failing
validation leaves the table unchanged. -/
def guildSave (db : List GuildRec) (g : GuildRec) :
    List GuildRec × Except DbError Unit :=
  match guildPreSave g with
  | Except.error e => (db, Except.error e)
  | Except.ok _ => (db ++ [g], Except.ok ())

/-- A `Role` row: platform role id, owning guild id, tier level and power. -/
structure RoleRec where
  id : Nat
  guild : Nat
  tier_level : Int
  tier_power : Int
deriving DecidableEq

/-- `Role._pre_save` against the current `roles` table: range checks, then for
tiered roles the duplicate-(tier level, tier power) lookup
`Role.get(guild=..., tier_level=..., tier_power=...).exists()` — which does
NOT exclude the row being saved. -/
def rolePreSave (db : List RoleRec) (r : RoleRec) : Except DbError Unit :=
  if ¬ (0 ≤ r.tier_level ∧ r.tier_level ≤ 100) then Except.error DbError.fieldError
  else if ¬ (0 ≤ r.tier_power ∧ r.tier_power ≤ 9) then Except.error DbError.fieldError
  else if r.tier_level ≠ 0 ∧
      (db.any fun x => x.guild == r.guild && x.tier_level == r.tier_level &&
        x.tier_power == r.tier_power) then
    Except.error DbError.integrityError
  else Except.ok ()

/-- Saving a `Role` row: `_pre_save` runs before the write. -/
def roleSave (db : List RoleRec) (r : RoleRec) :
    List RoleRec × Except DbError Unit :=
  match rolePreSave db r with
  | Except.error e => (db, Except.error e)
  | Except.ok _ => (db ++ [r], Except.ok ())

/-- `RolePacket.MAXIMUM_ROLES = 20`. -/
def MAXIMUM_ROLES : Nat := 20

/-- A `RolePacket` row. -/
structure RolePacketRec where
  guild : Nat
  name : List Char
  default_role_duration : Int
deriving DecidableEq

/-- A `PacketRole` row (the foreign keys are carried separately where the
checks need them). -/
structure PacketRoleRec where
  role : Nat
  role_packet : Nat
  duration : Int
deriving DecidableEq

/-- `PacketRole.create`: `duration = kwargs.pop("duration", None)` followed by
`if not duration: duration = role_packet.default_role_duration`.  Python
truthiness makes BOTH `None` and `0` fall back to the packet default. -/
def packetRoleCreate (role : Nat) (rp_id : Nat) (role_packet : RolePacketRec)
    (duration : Option Int) : PacketRoleRec :=
  let d : Int :=
    match duration with
    | none => role_packet.default_role_duration
    | some v => if v = 0 then role_packet.default_role_duration else v
  ⟨role, rp_id, d⟩

/-- `PacketRole._pre_save`: negative-duration check, then the role-count cap
(`count() + 1 > MAXIMUM_ROLES` over the rows already in the packet), then the
same-guild check on the two foreign keys. -/
def packetRolePreSave (existingCount : Nat) (roleGuild packetGuild : Nat)
    (pr : PacketRoleRec) : Except DbError Unit :=
  if pr.duration < 0 then Except.error DbError.fieldError
  else if MAXIMUM_ROLES < existingCount + 1 then Except.error DbError.integrityError
  else if roleGuild ≠ packetGuild then Except.error DbError.integrityError
  else Except.ok ()

/-- A `License` row, with the value of its exclusively-owned
`ReminderActivations` row inlined. -/
structure LicenseRec where
  key : List Char
  guild : Nat
  regenerating : Bool
  role_packet : Option Nat
  uses_left : Int
  reminder_activations : ActivationsRec
deriving DecidableEq

/-- The `elif` validation chain at the top of `License._pre_save`. -/
def licenseFieldChecks (lic : LicenseRec) : Except DbError Unit :=
  if lic.key.length < 14 then Except.error DbError.fieldError
  else if lic.uses_left < 0 then Except.error DbError.fieldError
  else if 1000000 < lic.uses_left then Except.error DbError.fieldError
  else if lic.regenerating ∧ 1 < lic.uses_left then Except.error DbError.fieldError
  else Except.ok ()

/-- The replacement license minted by the regeneration branch of
`License._pre_save`: `self.clone(pk=new_key)` copies every field (including
`uses_left` and `regenerating`) and only the key is fresh; the schedule set
afterwards is `self.reminder_activations.clone()`, a new row with the same
activation values.  `keygen step` models the key produced by
`LicenseFormatter.generate_single(guild.custom_license_format,
guild.license_branding)` at that recursion depth. -/
def regenReplacement (keygen : Nat → List Char) (step : Nat) (lic : LicenseRec) :
    LicenseRec :=
  { lic with key := keygen step }

/-- `License.save`: field checks, then — when `regenerating and uses_left == 0`
— the regeneration branch recursively saves the cloned replacement before the
original row is written.  `fuel` bounds the recursion depth; Python has no
bound and dies with `RecursionError`, modelled by exhausted fuel. -/
def licenseSave (keygen : Nat → List Char) : Nat → LicenseRec →
    Except DbError (List LicenseRec)
  | 0, _ => Except.error DbError.recursionError
  | fuel + 1, lic =>
    match licenseFieldChecks lic with
    | Except.error e => Except.error e
    | Except.ok _ =>
      if lic.regenerating = true ∧ lic.uses_left = 0 then
        match licenseSave keygen fuel (regenReplacement keygen fuel lic) with
        | Except.error e => Except.error e
        | Except.ok newly => Except.ok (newly ++ [lic])
      else Except.ok [lic]

/-- Whether a license save returned successfully persisted rows. -/
def saveSucceeded : Except DbError (List LicenseRec) → Bool
  | Except.ok _ => true
  | Except.error _ => false

/-- `ReminderActivations.create()` with all field defaults:
`first_activation = 720`, every other activation 0. -/
def defaultActivations : ActivationsRec := ⟨720, 0, 0, 0, 0⟩

/-- `RolePacket._pre_save`: the name length cap (max length 50) and the
nonnegative default duration check. -/
def rolePacketPreSave (rp : RolePacketRec) : Except DbError Unit :=
  if 50 < rp.name.length then Except.error DbError.fieldError
  else if rp.default_role_duration < 0 then Except.error DbError.fieldError
  else Except.ok ()

/-- Saving a `RolePacket` row: `_pre_save` runs before the write. -/
def rolePacketSave (db : List RolePacketRec) (rp : RolePacketRec) :
    List RolePacketRec × Except DbError Unit :=
  match rolePacketPreSave rp with
  | Except.error e => (db, Except.error e)
  | Except.ok _ => (db ++ [rp], Except.ok ())

/-- Saving a `PacketRole` row: `_pre_save` runs before the write. -/
def packetRoleSave (db : List PacketRoleRec) (existingCount : Nat)
    (roleGuild packetGuild : Nat) (pr : PacketRoleRec) :
    List PacketRoleRec × Except DbError Unit :=
  match packetRolePreSave existingCount roleGuild packetGuild pr with
  | Except.error e => (db, Except.error e)
  | Except.ok _ => (db ++ [pr], Except.ok ())

/-- `Guild.create`: when no schedule is supplied (`if not reminder_activations`),
`ReminderActivations.create()` persists a fresh default schedule row FIRST, and
only then does `super().create` save the guild row, running `Guild._pre_save`
— so the auto-created schedule row survives a failing guild validation. -/
def guildCreate (schedules : List ActivationsRec) (db : List GuildRec)
    (g : GuildRec) (supplied : Option ActivationsRec) :
    (List ActivationsRec × List GuildRec) × Except DbError Unit :=
  let schedules' :=
    match supplied with
    | none => (reminderSave schedules defaultActivations).1
    | some _ => schedules
  let saved := guildSave db g
  ((schedules', saved.1), saved.2)

/-- `License.create`: the same auto-create-then-save pattern as `Guild.create`
— `ReminderActivations.create()` persists a default schedule row before
`super().create` runs `License._pre_save` on the license itself. -/
def licenseCreate (schedules : List ActivationsRec) (keygen : Nat → List Char)
    (fuel : Nat) (lic : LicenseRec) (supplied : Option ActivationsRec) :
    List ActivationsRec × Except DbError (List LicenseRec) :=
  let schedules' :=
    match supplied with
    | none => (reminderSave schedules defaultActivations).1
    | some _ => schedules
  (schedules', licenseSave keygen fuel lic)

/-!
Guild / ReminderSchedule ownership lifecycle, abstracted to row identifiers:
`Guild.create` auto-creates a `ReminderActivations` row when none is supplied,
`Guild._post_delete` deletes the owned row, and the `OneToOneField` with
`on_delete=RESTRICT` forbids deleting a schedule still referenced by a guild
and forbids two guilds sharing one schedule row.
-/

/-- The persisted state: schedule row ids and guild rows `(guild id, owned
schedule id)`. -/
structure LifState where
  schedules : List Nat
  guilds : List (Nat × Nat)
deriving DecidableEq

/-- The lifecycle operations bearing on guild/schedule ownership. -/
inductive LifOp where
  | createGuild : Nat → Option Nat → LifOp
  | deleteGuild : Nat → LifOp
  | deleteSchedule : Nat → LifOp
deriving DecidableEq

/-- Is the schedule row `rid` referenced by some guild? -/
def schedOwned (guilds : List (Nat × Nat)) (rid : Nat) : Bool :=
  guilds.any fun g => g.2 == rid

/-- A schedule id not yet present in the state (auto-generated primary key). -/
def freshId (s : LifState) : Nat := s.schedules.foldr max 0 + 1

/-- One lifecycle step.  `createGuild` mirrors `Guild.create` (auto-creating
the schedule when none is supplied, and enforcing the primary-key and
one-to-one uniqueness constraints); `deleteGuild` mirrors `Guild.delete`
followed by `_post_delete`, whose schedule delete is itself subject to
`RESTRICT`; `deleteSchedule` mirrors a direct `ReminderActivations.delete`,
rejected with `IntegrityError` while any guild references the row. -/
def lifStep (s : LifState) : LifOp → Except DbError LifState
  | LifOp.createGuild gid ra =>
    if s.guilds.any fun g => g.1 == gid then Except.error DbError.integrityError
    else
      match ra with
      | none =>
        Except.ok ⟨s.schedules ++ [freshId s], s.guilds ++ [(gid, freshId s)]⟩
      | some rid =>
        if s.schedules.contains rid then
          if schedOwned s.guilds rid then Except.error DbError.integrityError
          else Except.ok ⟨s.schedules, s.guilds ++ [(gid, rid)]⟩
        else Except.error DbError.integrityError
  | LifOp.deleteGuild gid =>
    match s.guilds.find? fun g => g.1 == gid with
    | none => Except.error DbError.integrityError
    | some g =>
      let guilds' := s.guilds.filter fun x => x.1 != gid
      if schedOwned guilds' g.2 then Except.error DbError.integrityError
      else Except.ok ⟨s.schedules.filter fun r => r != g.2, guilds'⟩
  | LifOp.deleteSchedule rid =>
    if schedOwned s.guilds rid then Except.error DbError.integrityError
    else Except.ok ⟨s.schedules.filter fun r => r != rid, s.guilds⟩

/-- No two guild rows share a guild id or a schedule id. -/
def distinctOwnership : List (Nat × Nat) → Bool
  | [] => true
  | g :: rest =>
    (rest.all fun x => g.1 != x.1 && g.2 != x.2) && distinctOwnership rest

/-- The ownership invariant: every guild's schedule row exists, and ids and
schedules are owned exclusively. -/
def lifInv (s : LifState) : Bool :=
  (s.guilds.all fun g => s.schedules.contains g.2) && distinctOwnership s.guilds




lemma digits_length : digits.length = 10 := by decide

lemma ascii_uppercase_length : ascii_uppercase.length = 26 := by decide

lemma ascii_lowercase_length : ascii_lowercase.length = 26 := by decide

lemma ascii_letters_length : ascii_letters.length = 52 := by decide

lemma alphanumeric_length : (ascii_letters ++ digits).length = 62 := by decide

lemma punctuation_length : punctuation.length = 32 := by decide

/-- One multiplication step of `get_format_permutations` equals multiplying by
the specified charset size of the character. -/
lemma permutation_step_eq (p : Nat) (c : Char) :
    (match mapping c with
      | some charset => p * charset.length
      | none => p) = p * charsetSize c := by
  unfold mapping charsetSize
  split_ifs <;>
    simp [digits_length, ascii_uppercase_length, ascii_lowercase_length,
      ascii_letters_length, alphanumeric_length, punctuation_length]

lemma permutations_foldl (l : List Char) : ∀ a : Nat,
    l.foldl
      (fun p c =>
        match mapping c with
        | some charset => p * charset.length
        | none => p)
      a = a * (l.map charsetSize).prod := by
  induction l with
  | nil => intro a; simp
  | cons c l ih =>
    intro a
    simp only [List.foldl_cons, List.map_cons, List.prod_cons]
    rw [ih, permutation_step_eq]
    ring

/-- Appending a brace-free prefix commutes with `pyFormat`. -/
lemma pyFormat_append_of_noBrace (branding : List Char) (A B : List Char)
    (h : ∀ c ∈ A, c ≠ lbrace ∧ c ≠ rbrace) :
    pyFormat branding (A ++ B) = (pyFormat branding B).map fun t => A ++ t := by
  induction A with
  | nil =>
    simp only [List.nil_append]
    cases pyFormat branding B <;> simp
  | cons a A ih =>
    have ha := h a (List.mem_cons_self a A)
    have hA : ∀ c ∈ A, c ≠ lbrace ∧ c ≠ rbrace := fun c hc => h c (List.mem_cons_of_mem a hc)
    rw [List.cons_append, pyFormat.eq_def]
    simp only [if_neg ha.1, if_neg ha.2, ih hA]
    cases pyFormat branding B <;> simp

/-- A leading `"{branding}"` token is substituted by `pyFormat`. -/
lemma pyFormat_brandingTok_append (branding B : List Char) :
    pyFormat branding (brandingTok ++ B) = (pyFormat branding B).map fun t => branding ++ t :=
  rfl

/-- `pyFormat` applied to the joined pieces of `parse_format` substitutes the
branding for every re-inserted token, provided no piece produced a brace. -/
lemma pyFormat_buildPieces (choice : List Char → Char) (branding : List Char)
    (pieces : List (List Char))
    (h : ∀ p ∈ pieces, ∀ c ∈ processPiece choice p, c ≠ lbrace ∧ c ≠ rbrace) :
    pyFormat branding (buildPieces choice pieces) =
      some ((pieces.map fun p =>
        if 0 < p.length then processPiece choice p else branding).flatten) := by
  induction pieces with
  | nil => simp [buildPieces, pyFormat]
  | cons p ps ih =>
    have hp := h p (List.mem_cons_self p ps)
    have hps : ∀ q ∈ ps, ∀ c ∈ processPiece choice q, c ≠ lbrace ∧ c ≠ rbrace :=
      fun q hq => h q (List.mem_cons_of_mem p hq)
    simp only [buildPieces, List.map_cons, List.flatten_cons]
    by_cases hlen : 0 < p.length
    · rw [if_pos hlen, pyFormat_append_of_noBrace branding _ _ hp]
      rw [show ((ps.map fun q =>
          if 0 < q.length then processPiece choice q else brandingTok).flatten) =
          buildPieces choice ps from rfl, ih hps]
      simp [hlen]
    · rw [if_neg hlen, pyFormat_brandingTok_append]
      rw [show ((ps.map fun q =>
          if 0 < q.length then processPiece choice q else brandingTok).flatten) =
          buildPieces choice ps from rfl, ih hps]
      simp [hlen]

/-- C1 (counterexample): the claim that every occurrence of `{branding}` in the
format is substituted with the branding string is false.  For the format
`"X{branding}Y"` with branding `"BRAND"`, `parse_format` returns `"XY"`: the
mid-string token is dropped entirely instead of producing `"XBRANDY"`. -/
theorem parse_format_drops_mid_branding :
    parse_format choiceZ ('X' :: brandingTok ++ ['Y']) "BRAND".data = some ['X', 'Y'] ∧
    (['X', 'Y'] : List Char) ≠ 'X' :: "BRAND".data ++ ['Y'] := by
  constructor
  · decide
  · decide

/-- C1 (amended): `parse_format` substitutes the caller-supplied branding
string verbatim (never charset-expanded) only for the `{branding}` occurrences
whose piece in the split of the format is empty, i.e. occurrences touching the
start or the end of the format or another occurrence; every occurrence lying
between two non-empty pieces is dropped.  Within each piece, every literal
character that is not one of the placeholders `D`, `U`, `L`, `A`, `S` passes
through unchanged at its position (second conjunct), provided no brace
character reaches the final `str.format` step. -/
theorem parse_format_amended (choice : List Char → Char) (fmt branding : List Char)
    (h : ∀ p ∈ splitBranding (if fmt = [] then default_license_format else fmt),
        ∀ c ∈ processPiece choice p, c ≠ lbrace ∧ c ≠ rbrace) :
    parse_format choice fmt branding =
      some (((splitBranding (if fmt = [] then default_license_format else fmt)).map
        fun p => if 0 < p.length then processPiece choice p else branding).flatten) ∧
    ∀ (p : List Char) (i : Nat) (c : Char),
      p.get? i = some c → mapping c = none → (processPiece choice p).get? i = some c := by
  constructor
  · unfold parse_format
    exact pyFormat_buildPieces choice branding _ h
  · intro p i c hp hm
    have hmap : (processPiece choice p).get? i = (p.get? i).map fun d =>
        match mapping d with
        | some charset => choice charset
        | none => d := by
      simp [processPiece, List.get?_eq_getElem?, List.getElem?_map]
    rw [hmap, hp]
    simp [hm]

/-- C1 witness: evaluating the amended theorem on the concrete format
`"{branding}DD"` with branding `"HI"` and the constant random source. -/
theorem parse_format_amended_witness :
    (∀ p ∈ splitBranding (if (brandingTok ++ "DD".data) = ([] : List Char) then
        default_license_format else brandingTok ++ "DD".data),
      ∀ c ∈ processPiece choiceZ p, c ≠ lbrace ∧ c ≠ rbrace) ∧
    parse_format choiceZ (brandingTok ++ "DD".data) "HI".data = some "HIzz".data ∧
    (processPiece choiceZ "D-".data).get? 1 = some '-' := by
  refine ⟨by decide, ?_, ?_⟩
  · rw [(parse_format_amended choiceZ (brandingTok ++ "DD".data) "HI".data (by decide)).1]
    decide
  · exact (parse_format_amended choiceZ (brandingTok ++ "DD".data) "HI".data (by decide)).2
      "D-".data 1 '-' (by decide) (by decide)

/-- C3: `is_secure format` is true iff the format string is at least 14
characters long and `get_format_permutations format` is at least `10 ^ 24`;
and `get_format_permutations` is exactly the product, over the format with
every `{branding}` token removed, of the charset size of each recognised
placeholder (`D`: 10, `U`: 26, `L`: 26, `A`: 62, `S`: 32 punctuation symbols),
literal characters contributing no multiplier. -/
theorem is_secure_spec (fmt : List Char) :
    (is_secure fmt = true ↔
      14 ≤ fmt.length ∧ 10 ^ 24 ≤ get_format_permutations fmt) ∧
    get_format_permutations fmt = ((stripBranding fmt).map charsetSize).prod := by
  constructor
  · unfold is_secure min_license_length min_permutation_count
    split_ifs with hlen
    · simp only [Bool.false_eq_true, false_iff, not_and]
      intro hge
      omega
    · simp only [decide_eq_true_eq]
      constructor
      · intro hp
        exact ⟨by omega, hp⟩
      · intro hp
        exact hp.2
  · unfold get_format_permutations
    rw [permutations_foldl]
    ring

lemma checkRangesList_ok (l : List Int) (h : ∀ x ∈ l, 0 ≤ x) :
    checkRangesList l = Except.ok () := by
  induction l with
  | nil => rfl
  | cons a tail ih =>
    have ha := h a (List.mem_cons_self a tail)
    simp only [checkRangesList, if_neg (by omega : ¬ a < 0)]
    exact ih fun x hx => h x (List.mem_cons_of_mem a hx)

lemma checkOrderList_ok_iff (l : List Int) :
    checkOrderList l = Except.ok () ↔ List.Chain' (· > ·) l := by
  induction l with
  | nil => simp [checkOrderList]
  | cons a tail ih =>
    cases tail with
    | nil => simp [checkOrderList]
    | cons b rest =>
      rw [List.chain'_cons, ← ih]
      show (if a = b then Except.error DbError.fieldError
            else if a < b then Except.error DbError.fieldError
            else checkOrderList (b :: rest)) = Except.ok () ↔ _
      split_ifs with h1 h2
      · constructor
        · intro h
          exact absurd h (by simp)
        · rintro ⟨hab, -⟩
          omega
      · constructor
        · intro h
          exact absurd h (by simp)
        · rintro ⟨hab, -⟩
          omega
      · constructor
        · intro h
          exact ⟨by omega, h⟩
        · intro h
          exact h.2

/-- C5: saving a `ReminderSchedule` whose activations are all nonnegative
raises a `FieldError` exactly when the enabled (positive) activations, taken
in field order, are not strictly decreasing (a duplicate or an ascending
adjacent pair); every strictly decreasing positive sequence is accepted. -/
theorem reminder_order_check (db : List ActivationsRec) (r : ActivationsRec)
    (h : ∀ x ∈ get_all_activations r, 0 ≤ x) :
    (reminderSave db r).2 = Except.ok () ↔
      List.Chain' (· > ·) (positive_activations r) := by
  have hr : check_activation_ranges r = Except.ok () := checkRangesList_ok _ h
  show reminderPostSave r = Except.ok () ↔ _
  unfold reminderPostSave
  rw [hr]
  exact checkOrderList_ok_iff _

/-- C5 witness: the strictly descending schedule `(100, 99, 98, 0, 0)` from
the repository's own test suite is accepted. -/
theorem reminder_order_check_witness :
    (∀ x ∈ get_all_activations ⟨100, 99, 98, 0, 0⟩, (0 : Int) ≤ x) ∧
    (reminderSave [] ⟨100, 99, 98, 0, 0⟩).2 = Except.ok () := by
  constructor
  · decide
  · refine (reminder_order_check [] ⟨100, 99, 98, 0, 0⟩ (by decide)).mpr ?_
    have hpos : positive_activations ⟨100, 99, 98, 0, 0⟩ = [100, 99, 98] := by decide
    rw [hpos]
    norm_num [List.chain'_cons, List.chain'_singleton]

/-- C4: contrary to the claim (and to the repository's own test, which asserts
a `FieldError`), saving a `ReminderSchedule` whose first activation is 0
succeeds and persists the row: `_check_valid_first_activation` returns `false`
but `_post_save` discards that boolean instead of raising. -/
theorem reminder_zero_first_activation_saved :
    reminderSave [] ⟨0, 0, 0, 0, 0⟩ = ([⟨0, 0, 0, 0, 0⟩], Except.ok ()) ∧
    check_valid_first_activation ⟨0, 0, 0, 0, 0⟩ = false := by
  constructor
  · decide
  · decide

/-- C9 (counterexample): two concrete refutations of "the data model is
unchanged and no row has been persisted" when a `ValidationError` surfaces.
First, the schedule `(5, 10, 0, 0, 0)` fails its activation order check, yet
the save leaves the row persisted, because the checks run in `_post_save`,
after the row is written.  Second, `License.create` with the 5-character key
`"short"` raises the key-length `FieldError` only after `Guild.create`-style
auto-creation has already persisted a fresh default `ReminderActivations` row,
which survives as an orphan. -/
theorem reminder_failed_save_persists_row :
    (reminderSave [] ⟨5, 10, 0, 0, 0⟩).1 = [⟨5, 10, 0, 0, 0⟩] ∧
    (reminderSave [] ⟨5, 10, 0, 0, 0⟩).2 = Except.error DbError.fieldError ∧
    ([⟨5, 10, 0, 0, 0⟩] : List ActivationsRec) ≠ [] ∧
    licenseCreate [] (fun _ => []) 1
      ⟨"short".data, 1, false, none, 1, defaultActivations⟩ none =
      ([defaultActivations], Except.error DbError.fieldError) ∧
    ([defaultActivations] : List ActivationsRec) ≠ [] := by
  refine ⟨by decide, by decide, by decide, by decide, by decide⟩

/-- C9 (amended): for direct saves, every entity validated in `_pre_save`
(`Guild`, `Role`, `RolePacket`, `PacketRole`, `License`) rejects before its
own row is written: a failing validation leaves that entity's table unchanged,
and a failing `License` save persists no license row.  The claim's universal
"no row has been persisted" nevertheless fails on two paths: the `create`
classmethods of `Guild` and `License` persist an auto-created
`ReminderActivations` row before the entity's `_pre_save` runs, so a failing
create surfaces the `ValidationError` with an orphan schedule row already
persisted; and `ReminderSchedule` runs its own activation checks in
`_post_save`, after its row is written, so the failing schedule row itself
persists. -/
theorem validation_mutation_boundary :
    (∀ (db : List GuildRec) (g : GuildRec),
      guildPreSave g ≠ Except.ok () → (guildSave db g).1 = db) ∧
    (∀ (db : List RoleRec) (r : RoleRec),
      rolePreSave db r ≠ Except.ok () → (roleSave db r).1 = db) ∧
    (∀ (db : List RolePacketRec) (rp : RolePacketRec),
      rolePacketPreSave rp ≠ Except.ok () → (rolePacketSave db rp).1 = db) ∧
    (∀ (db : List PacketRoleRec) (n roleGuild packetGuild : Nat) (pr : PacketRoleRec),
      packetRolePreSave n roleGuild packetGuild pr ≠ Except.ok () →
      (packetRoleSave db n roleGuild packetGuild pr).1 = db) ∧
    (∀ (keygen : Nat → List Char) (fuel : Nat) (lic : LicenseRec) (e : DbError),
      licenseFieldChecks lic = Except.error e →
      licenseSave keygen (fuel + 1) lic = Except.error e) ∧
    (∀ (db : List ActivationsRec) (r : ActivationsRec),
      (reminderSave db r).1 = db ++ [r]) ∧
    (∀ (schedules : List ActivationsRec) (db : List GuildRec) (g : GuildRec),
      guildPreSave g ≠ Except.ok () →
      (guildCreate schedules db g none).1 = (schedules ++ [defaultActivations], db) ∧
      (guildCreate schedules db g none).2 ≠ Except.ok ()) ∧
    (∀ (schedules : List ActivationsRec) (keygen : Nat → List Char) (fuel : Nat)
      (lic : LicenseRec) (e : DbError),
      licenseFieldChecks lic = Except.error e →
      licenseCreate schedules keygen (fuel + 1) lic none =
        (schedules ++ [defaultActivations], Except.error e)) := by
  refine ⟨?_, ?_, ?_, ?_, ?_, ?_, ?_, ?_⟩
  · intro db g h
    cases hc : guildPreSave g with
    | error e => simp [guildSave, hc]
    | ok u => exact absurd (by rw [hc]) h
  · intro db r h
    cases hc : rolePreSave db r with
    | error e => simp [roleSave, hc]
    | ok u => exact absurd (by rw [hc]) h
  · intro db rp h
    cases hc : rolePacketPreSave rp with
    | error e => simp [rolePacketSave, hc]
    | ok u => exact absurd (by rw [hc]) h
  · intro db n roleGuild packetGuild pr h
    cases hc : packetRolePreSave n roleGuild packetGuild pr with
    | error e => simp [packetRoleSave, hc]
    | ok u => exact absurd (by rw [hc]) h
  · intro keygen fuel lic e hc
    simp [licenseSave, hc]
  · intro db r
    rfl
  · intro schedules db g h
    cases hc : guildPreSave g with
    | error e =>
      constructor
      · simp [guildCreate, guildSave, hc, reminderSave]
      · simp [guildCreate, guildSave, hc]
    | ok u => exact absurd (by rw [hc]) h
  · intro schedules keygen fuel lic e hc
    simp [licenseCreate, licenseSave, hc, reminderSave]

/-- C9 witness: a guild with an eleven-character command invocation string
fails `_pre_save` and its save leaves the guild table unchanged, while
`License.create` with the 5-character key `"short"` surfaces the key-length
`FieldError` with the auto-created schedule row already persisted. -/
theorem validation_mutation_boundary_witness :
    (guildPreSave ⟨1, "howdy_hello".data, [], [], 0, "en".data⟩ ≠ Except.ok () ∧
      licenseFieldChecks ⟨"short".data, 1, false, none, 1, defaultActivations⟩ =
        Except.error DbError.fieldError) ∧
    (guildSave [] ⟨1, "howdy_hello".data, [], [], 0, "en".data⟩).1 = [] ∧
    licenseCreate [] (fun _ => []) 1
      ⟨"short".data, 1, false, none, 1, defaultActivations⟩ none =
      ([defaultActivations], Except.error DbError.fieldError) := by
  refine ⟨⟨by decide, by decide⟩, ?_, ?_⟩
  · exact validation_mutation_boundary.1 [] _ (by decide)
  · exact validation_mutation_boundary.2.2.2.2.2.2.2 [] (fun _ => []) 0
      ⟨"short".data, 1, false, none, 1, defaultActivations⟩ DbError.fieldError (by decide)

/-- C10: re-saving an already persisted tiered role raises `IntegrityError`,
because the duplicate-(tier level, tier power) lookup in `Role._pre_save`
queries all roles of the guild without excluding the row being saved — so the
row always finds itself. -/
theorem role_resave_integrity_error (db : List RoleRec) (r : RoleRec)
    (hmem : r ∈ db) (h1 : 0 < r.tier_level) (h2 : r.tier_level ≤ 100)
    (h3 : 0 ≤ r.tier_power) (h4 : r.tier_power ≤ 9) :
    rolePreSave db r = Except.error DbError.integrityError := by
  have hany : (db.any fun x => x.guild == r.guild && x.tier_level == r.tier_level &&
      x.tier_power == r.tier_power) = true :=
    List.any_eq_true.mpr ⟨r, hmem, by simp⟩
  unfold rolePreSave
  rw [if_neg (not_not_intro ⟨by omega, h2⟩), if_neg (not_not_intro ⟨h3, h4⟩),
    if_pos ⟨by omega, hany⟩]

/-- C10 witness: the persisted role `(id 11, guild 1, tier 1, power 1)` fails
its own re-save. -/
theorem role_resave_integrity_error_witness :
    (⟨11, 1, 1, 1⟩ : RoleRec) ∈ [(⟨11, 1, 1, 1⟩ : RoleRec)] ∧
    rolePreSave [⟨11, 1, 1, 1⟩] ⟨11, 1, 1, 1⟩ = Except.error DbError.integrityError := by
  constructor
  · decide
  · exact role_resave_integrity_error [⟨11, 1, 1, 1⟩] ⟨11, 1, 1, 1⟩
      (by decide) (by decide) (by decide) (by decide) (by decide)

/-- C6 (counterexample): creating a `PacketRole` with the explicitly specified
duration 0 in a packet whose default duration is 360 stores 360, not the
specified 0 — Python's `if not duration` treats an explicit 0 as unspecified. -/
theorem packet_role_zero_duration_cex :
    (packetRoleCreate 1 1 ⟨123, "packet1".data, 360⟩ (some 0)).duration = 360 ∧
    ((360 : Int) ≠ 0) := by
  constructor
  · rfl
  · decide

/-- C6 (amended): the stored duration equals the explicitly specified duration
`d` whenever `d ≠ 0`; both an unspecified duration and an explicitly specified
duration of 0 fall back to the packet's `default_role_duration`. -/
theorem packet_role_duration_amended :
    (∀ (role rp_id : Nat) (rp : RolePacketRec) (d : Int), d ≠ 0 →
      (packetRoleCreate role rp_id rp (some d)).duration = d) ∧
    (∀ (role rp_id : Nat) (rp : RolePacketRec),
      (packetRoleCreate role rp_id rp none).duration = rp.default_role_duration) ∧
    (∀ (role rp_id : Nat) (rp : RolePacketRec),
      (packetRoleCreate role rp_id rp (some 0)).duration = rp.default_role_duration) := by
  refine ⟨?_, ?_, ?_⟩
  · intro role rp_id rp d hd
    simp [packetRoleCreate, hd]
  · intro role rp_id rp
    rfl
  · intro role rp_id rp
    rfl

/-- C6 witness: an explicit duration of 999 is stored as given (echoing the
repository's test). -/
theorem packet_role_duration_amended_witness :
    ((999 : Int) ≠ 0) ∧
    (packetRoleCreate 23 2 ⟨456, "packet2".data, 720⟩ (some 999)).duration = 999 := by
  constructor
  · decide
  · exact packet_role_duration_amended.1 23 2 ⟨456, "packet2".data, 720⟩ 999 (by decide)

/-- C7: for a valid `PacketRole` (nonnegative duration, matching guilds), the
create is accepted exactly while the packet's resulting role count stays at
most 20 (`existing + 1 ≤ 20`), and rejected with `IntegrityError` beyond: the
20th entry (19 existing) is accepted, the 21st (20 existing) is rejected. -/
theorem packet_role_cap (existing : Nat) (roleGuild packetGuild : Nat)
    (pr : PacketRoleRec) (hd : 0 ≤ pr.duration) (hg : roleGuild = packetGuild) :
    (existing + 1 ≤ 20 →
      packetRolePreSave existing roleGuild packetGuild pr = Except.ok ()) ∧
    (20 < existing + 1 →
      packetRolePreSave existing roleGuild packetGuild pr =
        Except.error DbError.integrityError) := by
  unfold packetRolePreSave MAXIMUM_ROLES
  constructor
  · intro hle
    rw [if_neg (by omega), if_neg (by omega), if_neg (by omega)]
  · intro hgt
    rw [if_neg (by omega), if_pos (by omega)]

/-- C7 witness: with 19 existing packet roles the 20th is accepted; with 20
existing the 21st is rejected. -/
theorem packet_role_cap_witness :
    ((0 : Int) ≤ 5 ∧ (1 : Nat) = 1) ∧
    packetRolePreSave 19 1 1 ⟨7, 3, 5⟩ = Except.ok () ∧
    packetRolePreSave 20 1 1 ⟨7, 3, 5⟩ = Except.error DbError.integrityError := by
  refine ⟨⟨by decide, rfl⟩, ?_, ?_⟩
  · exact (packet_role_cap 19 1 1 ⟨7, 3, 5⟩ (by decide) rfl).1 (by omega)
  · exact (packet_role_cap 20 1 1 ⟨7, 3, 5⟩ (by decide) rfl).2 (by omega)

lemma licenseSave_regen_error (keygen : Nat → List Char) :
    ∀ (fuel : Nat) (lic : LicenseRec), lic.regenerating = true → lic.uses_left = 0 →
    ∃ e, licenseSave keygen fuel lic = Except.error e := by
  intro fuel
  induction fuel with
  | zero =>
    intro lic _ _
    exact ⟨DbError.recursionError, rfl⟩
  | succ n ih =>
    intro lic hreg huses
    cases hchk : licenseFieldChecks lic with
    | error e => exact ⟨e, by simp [licenseSave, hchk]⟩
    | ok u =>
      obtain ⟨e, he⟩ := ih (regenReplacement keygen n lic)
        (by simp [regenReplacement, hreg]) (by simp [regenReplacement, huses])
      exact ⟨e, by simp [licenseSave, hchk, hreg, huses, he]⟩

/-- C2: saving a regenerating license whose `uses_left` reached 0 never
persists a valid replacement.  The minted replacement is a clone of the
exhausted license, so `uses_left` is copied as 0 — never set to 1 as both the
claim and the source's own docstring state — which re-triggers the
regeneration branch on the replacement's save: the recursion never terminates
(`saveSucceeded` is false for every recursion-depth budget). -/
theorem license_regen_never_succeeds (keygen : Nat → List Char) (fuel : Nat)
    (lic : LicenseRec) (hreg : lic.regenerating = true) (huses : lic.uses_left = 0) :
    saveSucceeded (licenseSave keygen fuel lic) = false ∧
    (regenReplacement keygen fuel lic).uses_left = 0 ∧
    (regenReplacement keygen fuel lic).uses_left ≠ 1 ∧
    (regenReplacement keygen fuel lic).regenerating = true := by
  obtain ⟨e, he⟩ := licenseSave_regen_error keygen fuel lic hreg huses
  refine ⟨by rw [he]; rfl, ?_, ?_, ?_⟩ <;> simp [regenReplacement, hreg, huses]

/-- C2 witness: a concrete regenerating license with `uses_left = 0` whose
save fails at recursion-depth budget 5. -/
theorem license_regen_never_succeeds_witness :
    ((⟨"AAAAAAAAAAAAAAAAAAAA".data, 1, true, none, 0, ⟨720, 0, 0, 0, 0⟩⟩ :
        LicenseRec).regenerating = true ∧
      (⟨"AAAAAAAAAAAAAAAAAAAA".data, 1, true, none, 0, ⟨720, 0, 0, 0, 0⟩⟩ :
        LicenseRec).uses_left = 0) ∧
    saveSucceeded (licenseSave (fun _ => "BBBBBBBBBBBBBBBBBBBB".data) 5
      ⟨"AAAAAAAAAAAAAAAAAAAA".data, 1, true, none, 0, ⟨720, 0, 0, 0, 0⟩⟩) = false := by
  constructor
  · exact ⟨rfl, rfl⟩
  · exact (license_regen_never_succeeds (fun _ => "BBBBBBBBBBBBBBBBBBBB".data) 5
      ⟨"AAAAAAAAAAAAAAAAAAAA".data, 1, true, none, 0, ⟨720, 0, 0, 0, 0⟩⟩ rfl rfl).1

lemma distinctOwnership_iff (l : List (Nat × Nat)) :
    distinctOwnership l = true ↔
      List.Pairwise (fun a b : Nat × Nat => a.1 ≠ b.1 ∧ a.2 ≠ b.2) l := by
  induction l with
  | nil => simp [distinctOwnership]
  | cons g rest ih =>
    simp only [distinctOwnership, Bool.and_eq_true, List.all_eq_true, ih,
      List.pairwise_cons]
    constructor
    · rintro ⟨h1, h2⟩
      refine ⟨fun x hx => ?_, h2⟩
      have hx' := h1 x hx
      simp only [Bool.and_eq_true, bne_iff_ne] at hx'
      exact hx'
    · rintro ⟨h1, h2⟩
      refine ⟨fun x hx => ?_, h2⟩
      simp only [Bool.and_eq_true, bne_iff_ne]
      exact h1 x hx

lemma schedOwned_false_iff (guilds : List (Nat × Nat)) (rid : Nat) :
    schedOwned guilds rid = false ↔ ∀ g ∈ guilds, g.2 ≠ rid := by
  unfold schedOwned
  rw [← Bool.not_eq_true, List.any_eq_true]
  constructor
  · intro h g hg heq
    exact h ⟨g, hg, by simp [heq]⟩
  · rintro h ⟨g, hg, hbe⟩
    exact h g hg (by simpa using hbe)

lemma anyFst_false_iff (guilds : List (Nat × Nat)) (gid : Nat) :
    (guilds.any fun g => g.1 == gid) = false ↔ ∀ g ∈ guilds, g.1 ≠ gid := by
  rw [← Bool.not_eq_true, List.any_eq_true]
  constructor
  · intro h g hg heq
    exact h ⟨g, hg, by simp [heq]⟩
  · rintro h ⟨g, hg, hbe⟩
    exact h g hg (by simpa using hbe)

lemma mem_le_foldr_max (l : List Nat) (x : Nat) (hx : x ∈ l) :
    x ≤ l.foldr max 0 := by
  induction l with
  | nil => cases hx
  | cons a rest ih =>
    rcases List.mem_cons.mp hx with rfl | h
    · exact le_max_left _ _
    · exact le_trans (ih h) (le_max_right _ _)

lemma freshId_not_mem (s : LifState) : freshId s ∉ s.schedules := by
  intro h
  have hle := mem_le_foldr_max s.schedules _ h
  simp only [freshId] at hle
  omega

lemma lifInv_iff (s : LifState) :
    lifInv s = true ↔
      (∀ g ∈ s.guilds, g.2 ∈ s.schedules) ∧
      List.Pairwise (fun a b : Nat × Nat => a.1 ≠ b.1 ∧ a.2 ≠ b.2) s.guilds := by
  unfold lifInv
  rw [Bool.and_eq_true, distinctOwnership_iff, List.all_eq_true]
  constructor
  · rintro ⟨h1, h2⟩
    exact ⟨fun g hg => by simpa using h1 g hg, h2⟩
  · rintro ⟨h1, h2⟩
    exact ⟨fun g hg => by simpa using h1 g hg, h2⟩

/-- C8: the guild/schedule ownership discipline.  (1) Creating a guild with no
schedule supplied mints exactly one fresh schedule row atomically with the
guild row.  (2) Every lifecycle step (creation with or without a supplied
schedule, guild deletion, direct schedule deletion) preserves the invariant
that each guild owns exactly one existing schedule row and no two guilds share
one.  (3) Under the invariant, deleting a guild also deletes exactly its own
schedule row.  (4) A schedule row still referenced by a guild cannot be
deleted independently (`RESTRICT` raises `IntegrityError`). -/
theorem guild_schedule_lifecycle :
    (∀ (s : LifState) (gid : Nat),
      (s.guilds.any fun g => g.1 == gid) = false →
      lifStep s (LifOp.createGuild gid none) =
        Except.ok ⟨s.schedules ++ [freshId s], s.guilds ++ [(gid, freshId s)]⟩ ∧
      freshId s ∉ s.schedules) ∧
    (∀ (s : LifState) (op : LifOp) (s' : LifState),
      lifInv s = true → lifStep s op = Except.ok s' → lifInv s' = true) ∧
    (∀ (s : LifState) (gid : Nat) (g : Nat × Nat),
      lifInv s = true → (s.guilds.find? fun x => x.1 == gid) = some g →
      lifStep s (LifOp.deleteGuild gid) =
        Except.ok ⟨s.schedules.filter fun r => r != g.2,
          s.guilds.filter fun x => x.1 != gid⟩) ∧
    (∀ (s : LifState) (rid : Nat),
      schedOwned s.guilds rid = true →
      lifStep s (LifOp.deleteSchedule rid) = Except.error DbError.integrityError) := by
  have hsymm : Symmetric (fun a b : Nat × Nat => a.1 ≠ b.1 ∧ a.2 ≠ b.2) :=
    fun a b h => ⟨Ne.symm h.1, Ne.symm h.2⟩
  refine ⟨?_, ?_, ?_, ?_⟩
  · intro s gid hany
    exact ⟨by simp [lifStep, hany], freshId_not_mem s⟩
  · intro s op s' hinv hstep
    rw [lifInv_iff] at hinv
    obtain ⟨hmem, hpw⟩ := hinv
    rw [lifInv_iff]
    cases op with
    | createGuild gid ra =>
      by_cases hany : (s.guilds.any fun g => g.1 == gid) = true
      · simp [lifStep, hany] at hstep
      · rw [Bool.not_eq_true] at hany
        have hfst : ∀ g ∈ s.guilds, g.1 ≠ gid := (anyFst_false_iff _ _).mp hany
        cases ra with
        | none =>
          simp only [lifStep, hany, Bool.false_eq_true, if_false,
            Except.ok.injEq] at hstep
          subst hstep
          constructor
          · intro g hg
            rcases List.mem_append.mp hg with hold | hnew
            · exact List.mem_append_left _ (hmem g hold)
            · rw [List.mem_singleton] at hnew
              subst hnew
              exact List.mem_append_right _ (List.mem_singleton.mpr rfl)
          · rw [List.pairwise_append]
            refine ⟨hpw, by simp, ?_⟩
            intro a ha b hb
            rw [List.mem_singleton] at hb
            subst hb
            refine ⟨hfst a ha, fun h2 => freshId_not_mem s ?_⟩
            have h2' : a.2 = freshId s := h2
            exact h2' ▸ hmem a ha
        | some rid =>
          by_cases hcon : s.schedules.contains rid = true
          · have hmemrid : rid ∈ s.schedules := by simpa using hcon
            by_cases hown : schedOwned s.guilds rid = true
            · have hrun : lifStep s (LifOp.createGuild gid (some rid)) =
                  Except.error DbError.integrityError := by
                simp [lifStep, hany, hmemrid, hown]
              rw [hrun] at hstep
              simp at hstep
            · rw [Bool.not_eq_true] at hown
              have hsnd : ∀ g ∈ s.guilds, g.2 ≠ rid := (schedOwned_false_iff _ _).mp hown
              have hrun : lifStep s (LifOp.createGuild gid (some rid)) =
                  Except.ok ⟨s.schedules, s.guilds ++ [(gid, rid)]⟩ := by
                simp [lifStep, hany, hmemrid, hown]
              rw [hrun] at hstep
              have hs' := Except.ok.inj hstep
              subst hs'
              constructor
              · intro g hg
                rcases List.mem_append.mp hg with hold | hnew
                · exact hmem g hold
                · rw [List.mem_singleton] at hnew
                  subst hnew
                  exact hmemrid
              · rw [List.pairwise_append]
                refine ⟨hpw, by simp, ?_⟩
                intro a ha b hb
                rw [List.mem_singleton] at hb
                subst hb
                exact ⟨hfst a ha, hsnd a ha⟩
          · have hmemrid : ¬ rid ∈ s.schedules := by simpa using hcon
            have hrun : lifStep s (LifOp.createGuild gid (some rid)) =
                Except.error DbError.integrityError := by
              simp [lifStep, hany, hmemrid]
            rw [hrun] at hstep
            simp at hstep
    | deleteGuild gid =>
      cases hfind : s.guilds.find? fun x => x.1 == gid with
      | none => simp [lifStep, hfind] at hstep
      | some g =>
        by_cases hown : schedOwned (s.guilds.filter fun x => x.1 != gid) g.2 = true
        · simp [lifStep, hfind, hown] at hstep
        · rw [Bool.not_eq_true] at hown
          have hsnd := (schedOwned_false_iff _ _).mp hown
          simp only [lifStep, hfind, hown, Bool.false_eq_true, if_false,
            Except.ok.injEq] at hstep
          subst hstep
          constructor
          · intro x hx
            have hx' := List.mem_filter.mp hx
            rw [List.mem_filter]
            refine ⟨hmem x hx'.1, ?_⟩
            simpa using hsnd x hx
          · exact List.Pairwise.filter _ hpw
    | deleteSchedule rid =>
      by_cases hown : schedOwned s.guilds rid = true
      · simp [lifStep, hown] at hstep
      · rw [Bool.not_eq_true] at hown
        have hsnd := (schedOwned_false_iff _ _).mp hown
        simp only [lifStep, hown, Bool.false_eq_true, if_false,
          Except.ok.injEq] at hstep
        subst hstep
        constructor
        · intro x hx
          rw [List.mem_filter]
          refine ⟨hmem x hx, ?_⟩
          simpa using hsnd x hx
        · exact hpw
  · intro s gid g hinv hfind
    rw [lifInv_iff] at hinv
    obtain ⟨hmem, hpw⟩ := hinv
    have hg_mem : g ∈ s.guilds := List.mem_of_find?_eq_some hfind
    have hg_fst : g.1 = gid := by simpa using List.find?_some hfind
    have hown : schedOwned (s.guilds.filter fun x => x.1 != gid) g.2 = false := by
      refine (schedOwned_false_iff _ _).mpr ?_
      intro x hx
      have hx' := List.mem_filter.mp hx
      have hxg : x ≠ g := by
        intro he
        subst he
        have : x.1 ≠ gid := by simpa using hx'.2
        exact this hg_fst
      exact (List.Pairwise.forall hsymm hpw hx'.1 hg_mem hxg).2
    simp [lifStep, hfind, hown]
  · intro s rid h
    simp [lifStep, h]

/-- C8 witness: from the empty state, creating guild 5 with no schedule mints
schedule row 1, and the resulting state satisfies the ownership invariant. -/
theorem guild_schedule_lifecycle_witness :
    (((⟨[], []⟩ : LifState).guilds.any fun g => g.1 == 5) = false ∧
      lifInv ⟨[], []⟩ = true) ∧
    lifStep ⟨[], []⟩ (LifOp.createGuild 5 none) = Except.ok ⟨[1], [(5, 1)]⟩ ∧
    lifInv ⟨[1], [(5, 1)]⟩ = true := by
  refine ⟨⟨rfl, rfl⟩, ?_, ?_⟩
  · exact (guild_schedule_lifecycle.1 ⟨[], []⟩ 5 rfl).1
  · exact guild_schedule_lifecycle.2.1 ⟨[], []⟩ (LifOp.createGuild 5 none)
      ⟨[1], [(5, 1)]⟩ rfl (by decide)

end Licensy
